import Mathlib

/-!
Shallow embedding of `rayoptics/raytr/vigcalc.py` (vignetting and clear
aperture setting operations).

Modelling conventions:

* Python floats are modelled as rationals (`ℚ`); the floating-point
  `sqrt` is modelled by `Rat.sqrt` (exact on perfect squares, which is
  all that concrete examples below use).
* A traced ray is the list of its per-surface intersection records;
  record `i` belongs to surface index `i` and carries the intersection
  point `p` (only the x/y components matter here).
* The external ray tracer `trace.trace_base` is an abstract function
  from a pupil coordinate and the `check_apertures` flag to a
  `TraceResult` (the `apply_vignetting` argument is `False` at every
  call site in this module and is omitted).  A Python `TraceError`
  raised by the tracer is the `TraceResult.err` case, carrying the
  error class, the failing surface index `surf` and the partial ray
  `ray_pkg`, as the spec's interface contract describes.
* The external root finder `scipy.optimize.newton` is an abstract
  `Solver`.  Since `vigcalc` calls it with `disp=False`, `newton`
  returns its current estimate (with a converged flag) instead of
  raising `RuntimeError` on non-convergence, so the only exception it
  can propagate is one raised by the objective function itself; the
  `except RuntimeError` branch of `iterate_pupil_ray` is unreachable.
  A solver outcome is therefore either a root estimate or a propagated
  objective failure.
* Python exceptions escaping a function are the `Except.error` case of
  its result.  `PyErr.trace e` is a propagating `TraceError`;
  `PyErr.index` is the `IndexError` raised when a partial ray is
  indexed past its end (`ray[indx]` in `r_pupil_coordinate`).
-/

namespace Vigcalc

/-- Error classes of `rayoptics.raytr.traceerror`: `TraceError` subclasses
for blocked (aperture check), missed surface, and total internal
reflection failures. -/
inductive TraceErrKind where
  | blocked
  | missed
  | tir
deriving DecidableEq, Repr

/-- Intersection record of a ray at one surface: the point `p` with its
x and y components (`ray[i][mc.p][0]`, `ray[i][mc.p][1]`). -/
structure RayPt where
  p : ℚ × ℚ
deriving DecidableEq, Repr, Inhabited

/-- A (possibly partial) traced ray: record `i` is at surface `i`. -/
abbrev Ray := List RayPt

/-- Data of a Python `TraceError`: error class, failing surface index
`surf`, and the partial ray `ray_pkg`. -/
structure TraceFailure where
  kind : TraceErrKind
  surf : ℕ
  ray : Ray
deriving DecidableEq, Repr

/-- Outcome of one call of the external tracer `trace.trace_base`:
either a complete ray or a raised `TraceError`. -/
inductive TraceResult where
  | ok (ray : Ray)
  | err (kind : TraceErrKind) (surf : ℕ) (ray : Ray)
deriving DecidableEq, Repr

/-- A Python exception escaping a function of this module: a
propagating `TraceError`, or an `IndexError` from indexing a partial
ray past its end. -/
inductive PyErr where
  | trace (e : TraceFailure)
  | index
deriving DecidableEq, Repr

/-- The external ray tracer: pupil coordinate and `check_apertures`
flag to trace outcome (field, wavelength and model are fixed). -/
abbrev Tracer := ℚ × ℚ → Bool → TraceResult

/-- Outcome of one call of the external root finder (`newton` with
`disp=False`): an estimate `r` with its convergence status, or a
failure raised by an evaluation of the objective, which propagates. -/
inductive SolveResult where
  | root (r : ℚ) (converged : Bool)
  | fail (e : PyErr)

/-- The external root finder: objective and starting guess to outcome. -/
abbrev Solver := (ℚ → Except PyErr ℚ) → ℚ → SolveResult

/-- Sequential-model data used by `vigcalc`: `surface_od i` is
`sm.ifcs[i].surface_od()` and `stop_surface` is `sm.stop_surface`. -/
structure SeqModel where
  surface_od : ℕ → ℚ
  stop_surface : Option ℕ

/-- Component read `v[xy]` of a 2-vector for an axis index `xy`. -/
def getXY (xy : Fin 2) (v : ℚ × ℚ) : ℚ :=
  if xy = 0 then v.1 else v.2

/-- Component write `v[xy] = c` of a 2-vector for an axis index `xy`. -/
def setXY (xy : Fin 2) (c : ℚ) (v : ℚ × ℚ) : ℚ × ℚ :=
  if xy = 0 then (c, v.2) else (v.1, c)

/-- Radial height `sqrt(ray[indx].p[0]**2 + ray[indx].p[1]**2)` of a ray
at surface `indx`, or `none` when the (partial) ray has no record there
(Python would raise `IndexError`). -/
def ray_r (ray : Ray) (indx : ℕ) : Option ℚ :=
  match ray.get? indx with
  | some pt => some (Rat.sqrt (pt.p.1 ^ 2 + pt.p.2 ^ 2))
  | none => none

/-- Objective function `r_pupil_coordinate` defined inside
`iterate_pupil_ray`: place `xy_coord` on axis `xy` of the pupil
coordinate `[0, 0]`, trace with `check_apertures=False`, and return the
ray height at surface `indx` minus `r_target`.  A missed-surface error
at `surf <= indx` and a TIR error at `surf < indx` are re-raised; any
other `TraceError` class propagates uncaught; otherwise the partial
ray is evaluated at `indx`. -/
def r_pupil_coordinate (tracer : Tracer) (indx : ℕ) (xy : Fin 2)
    (r_target : ℚ) (xy_coord : ℚ) : Except PyErr ℚ :=
  match tracer (setXY xy xy_coord (0, 0)) false with
  | .ok ray =>
      match ray_r ray indx with
      | some r_ray => .ok (r_ray - r_target)
      | none => .error .index
  | .err .missed surf ray =>
      if surf ≤ indx then
        .error (.trace ⟨.missed, surf, ray⟩)
      else
        match ray_r ray indx with
        | some r_ray => .ok (r_ray - r_target)
        | none => .error .index
  | .err .tir surf ray =>
      if surf < indx then
        .error (.trace ⟨.tir, surf, ray⟩)
      else
        match ray_r ray indx with
        | some r_ray => .ok (r_ray - r_target)
        | none => .error .index
  | .err .blocked surf ray => .error (.trace ⟨.blocked, surf, ray⟩)

/-- Function `iterate_pupil_ray`: iterate a ray to height `r_target` on
interface `indx` by running the root finder on `r_pupil_coordinate`.
With `indx = none` (floating stop surface) the search is skipped and
`r_target` is returned on the active axis.  A `TraceError` escaping the
solver is caught and `0.0` is used; the root estimate is used whether
or not the solver converged. -/
def iterate_pupil_ray (solve : Solver) (tracer : Tracer)
    (indx : Option ℕ) (xy : Fin 2) (start_r0 r_target : ℚ) :
    Except PyErr (ℚ × ℚ) :=
  match indx with
  | some i =>
      match solve (r_pupil_coordinate tracer i xy r_target) start_r0 with
      | .root start_r _ => .ok (setXY xy start_r (0, 0))
      | .fail (.trace _) => .ok (setXY xy 0 (0, 0))
      | .fail .index => .error .index
  | none => .ok (setXY xy r_target (0, 0))

/-- Loop state of the `while` loop of `calc_vignetted_ray`.  The local
`ray_pkg` starts out unbound (`none`); Python would raise
`UnboundLocalError` at the final `return` if the loop body never ran. -/
structure VigState where
  rel_p1 : ℚ × ℚ
  last_indx : Option ℕ
  ray_pkg : Option TraceResult
  iter_count : ℕ
  still_iterating : Bool
deriving DecidableEq, Repr

/-- Body of one pass of the `while` loop of `calc_vignetted_ray`:
increment `iter_count`, trace with `check_apertures=True`, and branch on
the outcome.  A `TraceError` at the surface that limited the previous
pass stops the iteration; any other failing surface becomes the new
target of `iterate_pupil_ray`.  A successful trace stops the iteration
unless this is the first pass, in which case the stop surface (when
defined) becomes the target; with a floating stop the iteration stops. -/
def vigStep (solve : Solver) (tracer : Tracer) (sm : SeqModel)
    (xy : Fin 2) (st : VigState) : Except PyErr VigState :=
  match tracer st.rel_p1 true with
  | .err kind indx ray =>
      if some indx = st.last_indx then
        .ok { st with
              iter_count := st.iter_count + 1,
              ray_pkg := some (.err kind indx ray),
              still_iterating := false }
      else
        match iterate_pupil_ray solve tracer (some indx) xy
            (getXY xy st.rel_p1) (sm.surface_od indx) with
        | .error e => .error e
        | .ok rel' =>
            .ok { rel_p1 := rel',
                  last_indx := some indx,
                  ray_pkg := some (.err kind indx ray),
                  iter_count := st.iter_count + 1,
                  still_iterating := true }
  | .ok ray =>
      if st.last_indx.isSome then
        .ok { st with
              iter_count := st.iter_count + 1,
              ray_pkg := some (.ok ray),
              still_iterating := false }
      else
        match sm.stop_surface with
        | some stop_indx =>
            match iterate_pupil_ray solve tracer (some stop_indx) xy
                (getXY xy st.rel_p1) (sm.surface_od stop_indx) with
            | .error e => .error e
            | .ok rel' =>
                .ok { rel_p1 := rel',
                      last_indx := some stop_indx,
                      ray_pkg := some (.ok ray),
                      iter_count := st.iter_count + 1,
                      still_iterating := true }
        | none =>
            .ok { st with
                  iter_count := st.iter_count + 1,
                  ray_pkg := some (.ok ray),
                  still_iterating := false }

/-- The `while still_iterating and iter_count < max_iter_count` loop,
compiled to fuelled recursion: the fuel is
`max_iter_count - iter_count`, which `vigStep`'s increment of
`iter_count` by one keeps in sync, so `fuel = 0` is exactly the
condition `iter_count < max_iter_count` failing. -/
def vigLoop (step : VigState → Except PyErr VigState) :
    ℕ → VigState → Except PyErr VigState
  | 0, st => .ok st
  | fuel + 1, st =>
      if st.still_iterating then
        match step st with
        | .error e => .error e
        | .ok st' => vigLoop step fuel st'
      else
        .ok st

/-- Result tuple of `calc_vignetted_ray`, together with the final local
state it is computed from.  `vig` is `none` when the division
`rel_p1[xy]/start_dir[xy]` has a zero divisor (numpy produces `nan` or
`inf` there rather than a number). -/
structure VigResult where
  vig : Option ℚ
  last_indx : Option ℕ
  ray_pkg : Option TraceResult
  rel_p1 : ℚ × ℚ
  iter_count : ℕ
deriving DecidableEq, Repr

/-- Function `calc_vignetted_ray`: find the limiting aperture for the
start direction `start_dir` on axis `xy` and return the vignetting
factor `1 - rel_p1[xy]/start_dir[xy]` together with the last limiting
surface index and the last traced ray package. -/
def calc_vignetted_ray (solve : Solver) (tracer : Tracer) (sm : SeqModel)
    (xy : Fin 2) (start_dir : ℚ × ℚ) (max_iter_count : ℕ) :
    Except PyErr VigResult :=
  match vigLoop (vigStep solve tracer sm xy) max_iter_count
      ⟨start_dir, none, none, 0, true⟩ with
  | .error e => .error e
  | .ok st =>
      .ok { vig := if getXY xy start_dir = 0 then none
                   else some (1 - getXY xy st.rel_p1 / getXY xy start_dir),
            last_indx := st.last_indx,
            ray_pkg := st.ray_pkg,
            rel_p1 := st.rel_p1,
            iter_count := st.iter_count }

/-- Radial height of a ray at surface `i`, as `set_ape` computes it:
`sqrt(ray[i].p[0]**2 + ray[i].p[1]**2)` (meaningful when `i` is in
range of the ray). -/
def ray_height (i : ℕ) (ray : Ray) : ℚ :=
  Rat.sqrt ((ray.getD i default).p.1 ^ 2 + (ray.getD i default).p.2 ^ 2)

/-- Inner accumulation step of `set_ape` for one boundary ray at
surface `i`: if the ray reaches surface `i`, fold its radial height
into the running maximum; otherwise clear the `update` flag. -/
def ape_scan_ray (i : ℕ) (acc : ℚ × Bool) (ray : Ray) : ℚ × Bool :=
  if i < ray.length then
    (if ray_height i ray > acc.1 then ray_height i ray else acc.1, acc.2)
  else
    (acc.1, false)

/-- The double loop of `set_ape` over the ray set for one surface `i`,
starting from `max_ap = -1.0e+10` and `update = True`. -/
def ape_scan (i : ℕ) (rayset : List (List Ray)) : ℚ × Bool :=
  rayset.foldl (fun acc f => f.foldl (ape_scan_ray i) acc)
    (-(10 ^ 10 : ℚ), true)

/-- Per-interface loop of `set_ape`, carrying the enumeration index:
interface `n + k` keeps its aperture unless every ray reached it, in
which case the maximum radial height becomes the new aperture. -/
def set_ape_go (rayset : List (List Ray)) : ℕ → List ℚ → List ℚ
  | _, [] => []
  | n, ap :: rest =>
      (if (ape_scan n rayset).2 then (ape_scan n rayset).1 else ap) ::
        set_ape_go rayset (n + 1) rest

/-- Function `set_ape`, restricted to its per-surface aperture update:
from the traced boundary-ray set, compute the new `max_aperture` of
each interface (the trace itself and the final element-model sync are
external collaborators). -/
def set_ape (rayset : List (List Ray)) (ifcs : List ℚ) : List ℚ :=
  set_ape_go rayset 0 ifcs

instance {ε : Type u} {α : Type v} [DecidableEq ε] [DecidableEq α] :
    DecidableEq (Except ε α)
  | .error x, .error y =>
      if h : x = y then .isTrue (by rw [h])
      else .isFalse (by intro hc; cases hc; exact h rfl)
  | .error _, .ok _ => .isFalse (by intro hc; cases hc)
  | .ok _, .error _ => .isFalse (by intro hc; cases hc)
  | .ok x, .ok y =>
      if h : x = y then .isTrue (by rw [h])
      else .isFalse (by intro hc; cases hc; exact h rfl)

/-! Concrete instances used by the counterexamples and witnesses below. -/

/-- Tracer that alternates its limiting surface with the sign of the x
pupil coordinate: surface 3 blocks positive launches, surface 5 blocks
the rest.  Combined with `oscSolve` it oscillates forever. -/
def oscTracer : Tracer := fun p _ =>
  if 0 < getXY 0 p then .err .blocked 3 [] else .err .blocked 5 []

/-- Solver that flips the sign of its starting guess, driving
`oscTracer` from one limiting surface to the other on every pass. -/
def oscSolve : Solver := fun _ r0 => .root (-r0) true

/-- Model with an aperture stop at surface 0 for the oscillation run. -/
def oscSm : SeqModel := ⟨fun _ => 1, some 0⟩

/-- Tracer that blocks at surface 2 exactly when the x pupil coordinate
reaches 1, and otherwise completes with a single on-axis record. -/
def c5Tracer : Tracer := fun p _ =>
  if 1 ≤ getXY 0 p then .err .blocked 2 [] else .ok [⟨(0, 0)⟩]

/-- Solver that always reports the root 1/2. -/
def c5Solve : Solver := fun _ _ => .root (1 / 2) true

/-- Model with a floating (undefined) aperture stop. -/
def c5Sm : SeqModel := ⟨fun _ => 1, none⟩

/-- Tracer that always fails with total internal reflection at surface
1, carrying a partial ray whose record at surface 1 sits at (3, 4),
radial height 5. -/
def cex1Tracer : Tracer := fun _ _ => .err .tir 1 [⟨(0, 0)⟩, ⟨(3, 4)⟩]

/-- Tracer that always fails with a missed surface at surface 1. -/
def wMissTracer : Tracer := fun _ _ => .err .missed 1 []

/-- Solver that always reports the root 7, not converged. -/
def w6SolveA : Solver := fun _ _ => .root 7 false

/-- Solver whose objective evaluation raised a trace failure. -/
def w6SolveB : Solver := fun _ _ => .fail (.trace ⟨.missed, 0, []⟩)

/-- Tracer that always completes with an empty ray. -/
def w9TracerA : Tracer := fun _ _ => .ok []

/-- Tracer that agrees with `w9TracerA` whenever the y pupil coordinate
is 0 and differs everywhere else. -/
def w9TracerB : Tracer := fun p _ =>
  if getXY 1 p = 0 then .ok [] else .err .blocked 0 []

/-- Tracer that always fails with a missed surface at surface 3. -/
def w4Tracer : Tracer := fun _ _ => .err .missed 3 [⟨(1, 2)⟩]

/-- Model with outer diameter 9 everywhere and a floating stop. -/
def w4Sm : SeqModel := ⟨fun _ => 9, none⟩

/-- Model with outer diameter 4 everywhere and a stop at surface 1. -/
def w4Sm' : SeqModel := ⟨fun _ => 4, some 1⟩

/-- Loop state in which surface 3 limited the previous pass. -/
def w4St : VigState := ⟨(1, 0), some 3, none, 5, true⟩

/-- Boundary-ray set of one field with two rays: both reach surface 0
(heights 5 and 2), only the first reaches surface 1. -/
def w7Rayset : List (List Ray) := [[[⟨(3, 4)⟩, ⟨(0, 1)⟩], [⟨(0, 2)⟩]]]

/-! Helper lemmas. -/

theorem getXY_setXY_self (xy : Fin 2) (c : ℚ) (v : ℚ × ℚ) :
    getXY xy (setXY xy c v) = c := by
  fin_cases xy <;> rfl

theorem getXY_setXY_inactive (xy : Fin 2) (c : ℚ) (v : ℚ × ℚ) :
    getXY (1 - xy) (setXY xy c v) = getXY (1 - xy) v := by
  fin_cases xy <;> rfl

/-- The `while` loop runs no pass once `still_iterating` is cleared. -/
theorem vigLoop_not_iterating (step : VigState → Except PyErr VigState)
    (fuel : ℕ) (st : VigState) (h : st.still_iterating = false) :
    vigLoop step fuel st = .ok st := by
  cases fuel <;> simp [vigLoop, h]

/-- Every successful pass of the loop body increments `iter_count` by
exactly one. -/
theorem vigStep_iter_count (solve : Solver) (tracer : Tracer) (sm : SeqModel)
    (xy : Fin 2) (st st' : VigState)
    (h : vigStep solve tracer sm xy st = .ok st') :
    st'.iter_count = st.iter_count + 1 := by
  unfold vigStep at h
  repeat' split at h
  all_goals first
    | (injection h with h'; subst h'; rfl)
    | simp at h

/-- A successful run of the fuelled loop increases `iter_count` by at
most the fuel. -/
theorem vigLoop_iter_le (step : VigState → Except PyErr VigState)
    (hstep : ∀ s s', step s = .ok s' → s'.iter_count = s.iter_count + 1) :
    ∀ (fuel : ℕ) (st st' : VigState), vigLoop step fuel st = .ok st' →
      st'.iter_count ≤ st.iter_count + fuel := by
  intro fuel
  induction fuel with
  | zero =>
      intro st st' h
      simp only [vigLoop] at h
      injection h with h'
      subst h'
      exact Nat.le_refl _
  | succ f ih =>
      intro st st' h
      simp only [vigLoop] at h
      split at h
      · cases hs : step st with
        | error e => rw [hs] at h; exact absurd h (by simp)
        | ok s1 =>
            rw [hs] at h
            have h1 := hstep _ _ hs
            have h2 := ih _ _ h
            omega
      · injection h with h'
        subst h'
        omega

/-! Claim theorems. -/

/-- C8: with an undefined (`none`) target surface index,
`iterate_pupil_ray` performs no root-finding search and no trace (its
result does not depend on the solver, the tracer, or the starting
guess), and the returned pupil coordinate carries the target radius on
the active axis and 0 on the other axis. -/
theorem iterate_pupil_ray_floating_target (solve solve' : Solver)
    (tracer tracer' : Tracer) (xy : Fin 2) (start_r0 start_r0' r_target : ℚ) :
    iterate_pupil_ray solve tracer none xy start_r0 r_target =
      .ok (setXY xy r_target (0, 0))
    ∧ getXY xy (setXY xy r_target (0, 0)) = r_target
    ∧ getXY (1 - xy) (setXY xy r_target (0, 0)) = 0
    ∧ iterate_pupil_ray solve tracer none xy start_r0 r_target =
        iterate_pupil_ray solve' tracer' none xy start_r0' r_target := by
  refine ⟨rfl, getXY_setXY_self xy r_target (0, 0), ?_, rfl⟩
  rw [getXY_setXY_inactive]
  fin_cases xy <;> rfl

/-- C6: `iterate_pupil_ray` propagates no failure to its caller when
the solver does not converge or when an objective evaluation raised a
trace failure: any root estimate, converged or not, becomes the active
axis coordinate, and a propagated `TraceError` yields coordinate 0.0. -/
theorem iterate_pupil_ray_error_recovery (solve : Solver) (tracer : Tracer)
    (i : ℕ) (xy : Fin 2) (start_r0 r_target : ℚ) :
    (∀ r conv, solve (r_pupil_coordinate tracer i xy r_target) start_r0 =
        .root r conv →
      iterate_pupil_ray solve tracer (some i) xy start_r0 r_target =
        .ok (setXY xy r (0, 0)))
    ∧ (∀ e, solve (r_pupil_coordinate tracer i xy r_target) start_r0 =
        .fail (.trace e) →
      iterate_pupil_ray solve tracer (some i) xy start_r0 r_target =
        .ok (setXY xy 0 (0, 0))) := by
  constructor
  · intro r conv h
    simp [iterate_pupil_ray, h]
  · intro e h
    simp [iterate_pupil_ray, h]

/-- C6 witness: a non-converged solver estimate 7 is returned on the
active axis, and a solver run aborted by a trace failure yields 0. -/
theorem iterate_pupil_ray_error_recovery_witness :
    iterate_pupil_ray w6SolveA w9TracerA (some 2) 0 1 5 =
      .ok (setXY 0 7 (0, 0))
    ∧ iterate_pupil_ray w6SolveB w9TracerA (some 2) 0 1 5 =
      .ok (setXY 0 0 (0, 0)) :=
  ⟨(iterate_pupil_ray_error_recovery w6SolveA w9TracerA 2 0 1 5).1 7 false rfl,
   (iterate_pupil_ray_error_recovery w6SolveB w9TracerA 2 0 1 5).2
     ⟨.missed, 0, []⟩ rfl⟩

/-- C9: during one pupil-ray iteration the inactive pupil axis is held
at 0: the objective only queries the tracer at coordinates whose
inactive component is 0 (two tracers agreeing on such coordinates give
the same objective), and every coordinate `iterate_pupil_ray` returns
has inactive component 0, in the search branch and in the
floating-target branch alike. -/
theorem pupil_ray_iteration_inactive_axis_zero (xy : Fin 2) :
    (∀ (tracer tracer' : Tracer) (i : ℕ) (r_target c : ℚ),
        (∀ p, getXY (1 - xy) p = 0 → tracer p false = tracer' p false) →
        r_pupil_coordinate tracer i xy r_target c =
          r_pupil_coordinate tracer' i xy r_target c)
    ∧ (∀ (solve : Solver) (tracer : Tracer) (indx : Option ℕ)
        (start_r0 r_target : ℚ) (coords : ℚ × ℚ),
        iterate_pupil_ray solve tracer indx xy start_r0 r_target =
          .ok coords →
        getXY (1 - xy) coords = 0) := by
  have hz : ∀ c : ℚ, getXY (1 - xy) (setXY xy c (0, 0)) = 0 := by
    intro c
    rw [getXY_setXY_inactive]
    fin_cases xy <;> rfl
  constructor
  · intro tracer tracer' i rt c hagree
    unfold r_pupil_coordinate
    rw [hagree _ (hz c)]
  · intro solve tracer indx r0 rt coords h
    cases indx with
    | none =>
        unfold iterate_pupil_ray at h
        injection h with h'
        subst h'
        exact hz rt
    | some i =>
        cases hs : solve (r_pupil_coordinate tracer i xy rt) r0 with
        | root r conv =>
            simp only [iterate_pupil_ray, hs] at h
            injection h with h'
            subst h'
            exact hz r
        | fail e =>
            cases e with
            | trace e' =>
                simp only [iterate_pupil_ray, hs] at h
                injection h with h'
                subst h'
                exact hz 0
            | index => simp only [iterate_pupil_ray, hs] at h; simp at h

/-- C9 witness: two tracers agreeing wherever the y coordinate is 0
give the same objective value at a concrete input, and a concrete
returned coordinate has y component 0. -/
theorem pupil_ray_iteration_inactive_axis_zero_witness :
    r_pupil_coordinate w9TracerA 0 0 1 3 = r_pupil_coordinate w9TracerB 0 0 1 3
    ∧ getXY (1 - 0) (setXY 0 7 (0, 0)) = 0 :=
  ⟨(pupil_ray_iteration_inactive_axis_zero 0).1 w9TracerA w9TracerB 0 1 3
      (fun p hp => by
        simp [w9TracerA, w9TracerB, show getXY 1 p = 0 from hp]),
   (pupil_ray_iteration_inactive_axis_zero 0).2 w6SolveA w9TracerA (some 2) 1 5
      (setXY 0 7 (0, 0)) rfl⟩

/-- C1 counterexample: a total-internal-reflection failure at a surface
index equal to the target surface index (`surf = indx = 1`) is not
re-raised to the root finder, contrary to the claim: the objective
evaluates the partial ray at the target surface (height 5 from the
point (3, 4)) and returns height minus target, `5 - 2 = 3`. -/
theorem tir_at_target_surface_not_reraised :
    r_pupil_coordinate cex1Tracer 1 0 2 7 = .ok 3 := by
  with_unfolding_all decide

/-- C1 (amended): in the objective function, a missed-surface failure
at `surf ≤ indx` and a TIR failure at `surf < indx` are re-raised to
the root finder; a missed-surface failure strictly beyond the target
and a TIR failure at or beyond the target use the partial ray's height
at the target surface, returning that height minus the target radius. -/
theorem r_pupil_coordinate_failure_handling (tracer : Tracer) (indx : ℕ)
    (xy : Fin 2) (r_target c : ℚ) (surf : ℕ) (ray : Ray) :
    (tracer (setXY xy c (0, 0)) false = .err .missed surf ray →
        (surf ≤ indx →
          r_pupil_coordinate tracer indx xy r_target c =
            .error (.trace ⟨.missed, surf, ray⟩))
        ∧ (indx < surf → ∀ h, ray_r ray indx = some h →
          r_pupil_coordinate tracer indx xy r_target c = .ok (h - r_target)))
    ∧ (tracer (setXY xy c (0, 0)) false = .err .tir surf ray →
        (surf < indx →
          r_pupil_coordinate tracer indx xy r_target c =
            .error (.trace ⟨.tir, surf, ray⟩))
        ∧ (indx ≤ surf → ∀ h, ray_r ray indx = some h →
          r_pupil_coordinate tracer indx xy r_target c = .ok (h - r_target))) := by
  constructor
  · intro htr
    constructor
    · intro hle
      simp only [r_pupil_coordinate, htr]
      rw [if_pos hle]
    · intro hgt h hr
      have hn : ¬ surf ≤ indx := by omega
      simp only [r_pupil_coordinate, htr]
      rw [if_neg hn, hr]
  · intro htr
    constructor
    · intro hlt
      simp only [r_pupil_coordinate, htr]
      rw [if_pos hlt]
    · intro hge h hr
      have hn : ¬ surf < indx := by omega
      simp only [r_pupil_coordinate, htr]
      rw [if_neg hn, hr]

/-- C1 witness: a missed-surface failure at surface 1 with target
surface 2 is re-raised, and the TIR failure of `cex1Tracer` beyond-or-at
the target surface evaluates the partial ray there. -/
theorem r_pupil_coordinate_failure_handling_witness :
    r_pupil_coordinate wMissTracer 2 0 4 9 =
      .error (.trace ⟨.missed, 1, []⟩)
    ∧ r_pupil_coordinate cex1Tracer 1 0 2 7 = .ok (5 - 2) :=
  ⟨((r_pupil_coordinate_failure_handling wMissTracer 2 0 4 9 1 []).1 rfl).1
      (by omega),
   ((r_pupil_coordinate_failure_handling cex1Tracer 1 0 2 7 1
        [⟨(0, 0)⟩, ⟨(3, 4)⟩]).2 rfl).2 (by omega) 5
      (by with_unfolding_all decide)⟩

/-- C4: when a trace pass fails at the surface `S` that limited the
immediately previous pass, the search declares convergence: the pass
stops the iteration without calling the pupil-ray iteration again (its
outcome does not depend on the solver or on the model's radii), the
last limiting index stays `S`, and the loop performs no further pass
from the resulting state. -/
theorem vigStep_repeated_limiting_surface_stops (solve solve' : Solver)
    (tracer : Tracer) (sm sm' : SeqModel) (xy : Fin 2) (st : VigState)
    (S : ℕ) (kind : TraceErrKind) (ray : Ray)
    (hlast : st.last_indx = some S)
    (htr : tracer st.rel_p1 true = .err kind S ray) :
    vigStep solve tracer sm xy st =
      .ok { st with iter_count := st.iter_count + 1,
                    ray_pkg := some (.err kind S ray),
                    still_iterating := false }
    ∧ vigStep solve tracer sm xy st = vigStep solve' tracer sm' xy st
    ∧ (vigStep solve tracer sm xy st).map VigState.last_indx = .ok (some S)
    ∧ ∀ (fuel : ℕ) (st' : VigState), vigStep solve tracer sm xy st = .ok st' →
        vigLoop (vigStep solve tracer sm xy) fuel st' = .ok st' := by
  have hcond : some S = st.last_indx := hlast.symm
  have h1 : vigStep solve tracer sm xy st =
      .ok { st with iter_count := st.iter_count + 1,
                    ray_pkg := some (.err kind S ray),
                    still_iterating := false } := by
    simp only [vigStep, htr]
    rw [if_pos hcond]
  have h2 : vigStep solve' tracer sm' xy st =
      .ok { st with iter_count := st.iter_count + 1,
                    ray_pkg := some (.err kind S ray),
                    still_iterating := false } := by
    simp only [vigStep, htr]
    rw [if_pos hcond]
  refine ⟨h1, h2 ▸ h1, ?_, ?_⟩
  · rw [h1]
    simp [hlast, Except.map]
  · intro fuel st' hst'
    rw [h1] at hst'
    injection hst' with h'
    subst h'
    exact vigLoop_not_iterating _ fuel _ rfl

/-- C4 witness: with surface 3 recorded as the previous limiting
surface, a repeated failure at surface 3 stops the search with the same
state under two different solvers and models. -/
theorem vigStep_repeated_limiting_surface_stops_witness :
    vigStep oscSolve w4Tracer w4Sm 0 w4St =
      .ok ⟨(1, 0), some 3, some (.err .missed 3 [⟨(1, 2)⟩]), 6, false⟩
    ∧ vigStep oscSolve w4Tracer w4Sm 0 w4St = vigStep c5Solve w4Tracer w4Sm' 0 w4St :=
  ⟨(vigStep_repeated_limiting_surface_stops oscSolve c5Solve w4Tracer w4Sm w4Sm'
      0 w4St 3 .missed [⟨(1, 2)⟩] rfl rfl).1,
   (vigStep_repeated_limiting_surface_stops oscSolve c5Solve w4Tracer w4Sm w4Sm'
      0 w4St 3 .missed [⟨(1, 2)⟩] rfl rfl).2.1⟩

/-- C2: the search loop of `calc_vignetted_ray` executes at most
`max_iter_count` passes, and with the default bound 10 a tracer whose
limiting surface alternates between surfaces 3 and 5 on every pass
still terminates, returning normally after exactly 10 passes with the
coordinate last reached. -/
theorem calc_vignetted_ray_iteration_bound :
    (∀ (solve : Solver) (tracer : Tracer) (sm : SeqModel) (xy : Fin 2)
        (start_dir : ℚ × ℚ) (max_iter_count : ℕ) (res : VigResult),
        calc_vignetted_ray solve tracer sm xy start_dir max_iter_count =
          .ok res →
        res.iter_count ≤ max_iter_count)
    ∧ calc_vignetted_ray oscSolve oscTracer oscSm 0 (1, 0) 10 =
        .ok ⟨some 0, some 5, some (.err .blocked 5 []), (1, 0), 10⟩ := by
  constructor
  · intro solve tracer sm xy start_dir max_iter res h
    unfold calc_vignetted_ray at h
    cases hl : vigLoop (vigStep solve tracer sm xy) max_iter
        ⟨start_dir, none, none, 0, true⟩ with
    | error e => rw [hl] at h; exact absurd h (by simp)
    | ok st =>
        rw [hl] at h
        have hb := vigLoop_iter_le (vigStep solve tracer sm xy)
          (fun s s' => vigStep_iter_count solve tracer sm xy s s') max_iter _ _ hl
        injection h with h'
        subst h'
        simpa using hb
  · with_unfolding_all decide

/-- C2 witness: the oscillating run of the claim theorem's second part
satisfies the bound of its first part. -/
theorem calc_vignetted_ray_iteration_bound_witness :
    (⟨some 0, some 5, some (.err .blocked 5 []), (1, 0), 10⟩ : VigResult).iter_count ≤ 10 :=
  calc_vignetted_ray_iteration_bound.1 oscSolve oscTracer oscSm 0 (1, 0) 10 _
    calc_vignetted_ray_iteration_bound.2

/-- C3: every terminating (exception-free) call of `calc_vignetted_ray`
whose starting direction has a nonzero active-axis component returns
the vignetting factor `1 - c / c0`, where `c` is the final active-axis
coordinate and `c0` the starting one. -/
theorem calc_vignetted_ray_vig_formula (solve : Solver) (tracer : Tracer)
    (sm : SeqModel) (xy : Fin 2) (start_dir : ℚ × ℚ) (max_iter_count : ℕ)
    (res : VigResult)
    (h : calc_vignetted_ray solve tracer sm xy start_dir max_iter_count = .ok res)
    (h0 : getXY xy start_dir ≠ 0) :
    res.vig = some (1 - getXY xy res.rel_p1 / getXY xy start_dir) := by
  unfold calc_vignetted_ray at h
  cases hl : vigLoop (vigStep solve tracer sm xy) max_iter_count
      ⟨start_dir, none, none, 0, true⟩ with
  | error e => rw [hl] at h; exact absurd h (by simp)
  | ok st =>
      rw [hl] at h
      injection h with h'
      subst h'
      simp [h0]

/-- C3 witness: the run limited at surface 2 ends at coordinate 1/2
from start 1, and its reported factor is exactly `1 - (1/2)/1`. -/
theorem calc_vignetted_ray_vig_formula_witness :
    (⟨some (1/2), some 2, some (.ok [⟨(0, 0)⟩]), (1/2, 0), 2⟩ : VigResult).vig =
      some (1 - getXY 0 ((1 : ℚ)/2, (0 : ℚ)) / getXY 0 ((1 : ℚ), (0 : ℚ))) :=
  calc_vignetted_ray_vig_formula c5Solve c5Tracer c5Sm 0 (1, 0) 10
    ⟨some (1/2), some 2, some (.ok [⟨(0, 0)⟩]), (1/2, 0), 2⟩
    (by with_unfolding_all decide) (by with_unfolding_all decide)

/-- C10: `calc_vignetted_ray` computes `rel_p1[xy]/start_dir[xy]`
unconditionally on return, so a starting direction with active-axis
component 0 makes that division's divisor zero and no well-defined
vignetting factor is produced (numpy yields nan or inf; modelled as
`none`). -/
theorem calc_vignetted_ray_zero_start_divides_by_zero (solve : Solver)
    (tracer : Tracer) (sm : SeqModel) (xy : Fin 2) (start_dir : ℚ × ℚ)
    (max_iter_count : ℕ) (res : VigResult)
    (h : calc_vignetted_ray solve tracer sm xy start_dir max_iter_count = .ok res)
    (h0 : getXY xy start_dir = 0) :
    res.vig = none := by
  unfold calc_vignetted_ray at h
  cases hl : vigLoop (vigStep solve tracer sm xy) max_iter_count
      ⟨start_dir, none, none, 0, true⟩ with
  | error e => rw [hl] at h; exact absurd h (by simp)
  | ok st =>
      rw [hl] at h
      injection h with h'
      subst h'
      simp [h0]

/-- C10 witness: starting at pupil direction (0, 0) on the x axis, the
returned vignetting factor is undefined. -/
theorem calc_vignetted_ray_zero_start_divides_by_zero_witness :
    (⟨none, none, some (.ok [⟨(0, 0)⟩]), (0, 0), 1⟩ : VigResult).vig = none :=
  calc_vignetted_ray_zero_start_divides_by_zero c5Solve c5Tracer c5Sm 0 (0, 0) 10
    ⟨none, none, some (.ok [⟨(0, 0)⟩]), (0, 0), 1⟩
    (by with_unfolding_all decide) rfl

/-- C5 counterexample: a system with a floating (undefined) aperture
stop whose first traced ray is blocked at surface 2 does not return
vignetting factor 0 or the unmodified starting direction: the search
iterates against surface 2 and reports factor 1/2 with the modified
coordinate (1/2, 0). -/
theorem floating_stop_nonzero_vig_counterexample :
    c5Sm.stop_surface = none
    ∧ calc_vignetted_ray c5Solve c5Tracer c5Sm 0 (1, 0) 10 =
        .ok ⟨some (1/2), some 2, some (.ok [⟨(0, 0)⟩]), (1/2, 0), 2⟩
    ∧ some ((1 : ℚ)/2) ≠ some 0
    ∧ ((1 : ℚ)/2, (0 : ℚ)) ≠ ((1 : ℚ), (0 : ℚ)) := by
  refine ⟨rfl, by with_unfolding_all decide, ?_, ?_⟩ <;> with_unfolding_all decide

/-- C5 (amended): for a field whose aperture-stop surface is undefined
(floating stop), provided the first traced ray succeeds and the
starting direction has a nonzero active-axis component,
`calc_vignetted_ray` returns a vignetting factor of exactly 0 and the
starting direction unmodified, after a single pass. -/
theorem calc_vignetted_ray_floating_stop (solve : Solver) (tracer : Tracer)
    (sm : SeqModel) (xy : Fin 2) (start_dir : ℚ × ℚ) (max_iter_count : ℕ)
    (ray : Ray)
    (hstop : sm.stop_surface = none)
    (hok : tracer start_dir true = .ok ray)
    (h0 : getXY xy start_dir ≠ 0)
    (hiter : 1 ≤ max_iter_count) :
    calc_vignetted_ray solve tracer sm xy start_dir max_iter_count =
      .ok ⟨some 0, none, some (.ok ray), start_dir, 1⟩ := by
  obtain ⟨f, rfl⟩ : ∃ f, max_iter_count = f + 1 := ⟨max_iter_count - 1, by omega⟩
  have hstep : vigStep solve tracer sm xy ⟨start_dir, none, none, 0, true⟩ =
      .ok ⟨start_dir, none, some (.ok ray), 1, false⟩ := by
    simp only [vigStep, hok, hstop]
    rfl
  unfold calc_vignetted_ray
  rw [show vigLoop (vigStep solve tracer sm xy) (f + 1)
        ⟨start_dir, none, none, 0, true⟩ =
      .ok ⟨start_dir, none, some (.ok ray), 1, false⟩ by
    simp only [vigLoop, hstep]
    exact vigLoop_not_iterating _ f _ rfl]
  simp [h0, div_self h0]

/-- C5 witness: with the floating-stop model but a harmless start
(x component 1/2) the first trace succeeds and the factor is exactly 0
with the direction returned unmodified. -/
theorem calc_vignetted_ray_floating_stop_witness :
    calc_vignetted_ray c5Solve c5Tracer c5Sm 0 (1/2, 0) 10 =
      .ok ⟨some 0, none, some (.ok [⟨(0, 0)⟩]), (1/2, 0), 1⟩ :=
  calc_vignetted_ray_floating_stop c5Solve c5Tracer c5Sm 0 (1/2, 0) 10
    [⟨(0, 0)⟩] rfl (by with_unfolding_all decide)
    (by with_unfolding_all decide) (by omega)

/-! Lemmas about the aperture scan of `set_ape`. -/

theorem ite_lt_max (a b : ℚ) : (if a < b then b else a) = max a b := by
  rcases lt_or_le a b with h | h
  · rw [if_pos h, max_eq_right h.le]
  · rw [if_neg (not_lt.mpr h), max_eq_left h]

theorem foldl_max_mem (l : List ℚ) :
    ∀ a : ℚ, l.foldl max a = a ∨ l.foldl max a ∈ l := by
  induction l with
  | nil => intro a; exact Or.inl rfl
  | cons b t ih =>
      intro a
      rcases ih (max a b) with h | h
      · rcases max_choice a b with hm | hm
        · exact Or.inl (by rw [List.foldl_cons, h, hm])
        · exact Or.inr (by rw [List.foldl_cons, h, hm]; exact List.mem_cons_self b t)
      · exact Or.inr (List.mem_cons_of_mem b h)

theorem le_foldl_max (l : List ℚ) : ∀ a : ℚ, a ≤ l.foldl max a := by
  induction l with
  | nil => intro a; exact le_refl a
  | cons b t ih => intro a; exact le_trans (le_max_left a b) (ih (max a b))

theorem mem_le_foldl_max (l : List ℚ) :
    ∀ (a x : ℚ), x ∈ l → x ≤ l.foldl max a := by
  induction l with
  | nil => intro a x hx; cases hx
  | cons b t ih =>
      intro a x hx
      rcases List.mem_cons.mp hx with rfl | hx
      · exact le_trans (le_max_right a x) (le_foldl_max t (max a x))
      · exact ih (max a b) x hx

/-- The `update` flag after scanning a list of rays is the conjunction
of the incoming flag with every ray reaching surface `i`. -/
theorem ape_scan_ray_flag (i : ℕ) (l : List Ray) :
    ∀ acc : ℚ × Bool,
    (l.foldl (ape_scan_ray i) acc).2 =
      (acc.2 && l.all fun r => decide (i < r.length)) := by
  induction l with
  | nil => intro acc; simp
  | cons r t ih =>
      intro acc
      rw [List.foldl_cons, ih]
      by_cases h : i < r.length
      · simp [ape_scan_ray, h]
      · simp [ape_scan_ray, h]

/-- When every scanned ray reaches surface `i`, the `max_ap`
accumulator folds the radial heights with `max`. -/
theorem ape_scan_ray_max (i : ℕ) (l : List Ray) :
    ∀ acc : ℚ × Bool, (∀ r ∈ l, i < r.length) →
    (l.foldl (ape_scan_ray i) acc).1 =
      (l.map (ray_height i)).foldl max acc.1 := by
  induction l with
  | nil => intro acc _; rfl
  | cons r t ih =>
      intro acc hall
      have hr : i < r.length := hall r (List.mem_cons_self r t)
      rw [List.foldl_cons, List.map_cons, List.foldl_cons,
        ih _ (fun r' hr' => hall r' (List.mem_cons_of_mem r hr'))]
      congr 1
      simp only [ape_scan_ray, if_pos hr]
      exact ite_lt_max acc.1 (ray_height i r)

theorem ape_scan_flag (i : ℕ) (rayset : List (List Ray)) :
    (ape_scan i rayset).2 =
      rayset.flatten.all fun r => decide (i < r.length) := by
  unfold ape_scan
  rw [← List.foldl_flatten, ape_scan_ray_flag]
  simp

theorem ape_scan_val (i : ℕ) (rayset : List (List Ray))
    (hall : ∀ r ∈ rayset.flatten, i < r.length) :
    (ape_scan i rayset).1 =
      (rayset.flatten.map (ray_height i)).foldl max (-(10 ^ 10 : ℚ)) := by
  unfold ape_scan
  rw [← List.foldl_flatten]
  exact ape_scan_ray_max i rayset.flatten _ hall

theorem set_ape_go_getD (rayset : List (List Ray)) :
    ∀ (ifcs : List ℚ) (n i : ℕ), i < ifcs.length →
    (set_ape_go rayset n ifcs).getD i 0 =
      if (ape_scan (n + i) rayset).2 then (ape_scan (n + i) rayset).1
      else ifcs.getD i 0 := by
  intro ifcs
  induction ifcs with
  | nil => intro n i hi; simp at hi
  | cons a t ih =>
      intro n i hi
      cases i with
      | zero => simp [set_ape_go]
      | succ j =>
          have hj : j < t.length := by simpa using hi
          rw [set_ape_go, List.getD_cons_succ, List.getD_cons_succ,
            ih (n + 1) j hj, show n + 1 + j = n + (j + 1) by omega]

/-- C7: `set_ape` replaces the aperture of surface `i` by the maximum
radial height over all boundary rays exactly when every ray of the full
field-by-direction set reaches surface `i` (the new value is the height
of some ray and bounds the heights of all of them); if any ray fails
before reaching surface `i`, the aperture of surface `i` is left
unchanged. -/
theorem set_ape_updates_iff_all_rays_reach (rayset : List (List Ray))
    (ifcs : List ℚ) (i : ℕ) (hi : i < ifcs.length) :
    ((∀ f ∈ rayset, ∀ r ∈ f, i < r.length) → rayset.flatten ≠ [] →
        (∃ f ∈ rayset, ∃ r ∈ f,
          (set_ape rayset ifcs).getD i 0 = ray_height i r)
        ∧ ∀ f ∈ rayset, ∀ r ∈ f,
            ray_height i r ≤ (set_ape rayset ifcs).getD i 0)
    ∧ ((¬ ∀ f ∈ rayset, ∀ r ∈ f, i < r.length) →
        (set_ape rayset ifcs).getD i 0 = ifcs.getD i 0) := by
  have hflat : ∀ r : Ray, r ∈ rayset.flatten ↔ ∃ f ∈ rayset, r ∈ f :=
    fun r => List.mem_flatten
  have hgetD := set_ape_go_getD rayset ifcs 0 i hi
  rw [Nat.zero_add] at hgetD
  constructor
  · intro hall hne
    have hall' : ∀ r ∈ rayset.flatten, i < r.length := by
      intro r hr
      obtain ⟨f, hf, hrf⟩ := (hflat r).mp hr
      exact hall f hf r hrf
    have hflag : (ape_scan i rayset).2 = true := by
      rw [ape_scan_flag]
      simp only [List.all_eq_true, decide_eq_true_eq]
      exact hall'
    have hval := ape_scan_val i rayset hall'
    rw [set_ape, hgetD, if_pos hflag, hval]
    obtain ⟨r0, hr0⟩ : ∃ r, r ∈ rayset.flatten :=
      List.exists_mem_of_ne_nil _ hne
    have hh0 : (0 : ℚ) ≤ ray_height i r0 := by
      unfold ray_height; exact Rat.sqrt_nonneg _
    have hinit : -(10 ^ 10 : ℚ) < ray_height i r0 :=
      lt_of_lt_of_le (by norm_num) hh0
    constructor
    · rcases foldl_max_mem (rayset.flatten.map (ray_height i))
          (-(10 ^ 10 : ℚ)) with h | h
      · have hle := mem_le_foldl_max (rayset.flatten.map (ray_height i))
          (-(10 ^ 10 : ℚ)) (ray_height i r0)
          (List.mem_map_of_mem _ hr0)
        rw [h] at hle
        exact absurd hle (not_le.mpr hinit)
      · obtain ⟨r, hrmem, hreq⟩ := List.mem_map.mp h
        obtain ⟨f, hf, hrf⟩ := (hflat r).mp hrmem
        exact ⟨f, hf, r, hrf, hreq.symm⟩
    · intro f hf r hrf
      exact mem_le_foldl_max _ _ _
        (List.mem_map_of_mem _ ((hflat r).mpr ⟨f, hf, hrf⟩))
  · intro hnall
    have hflag : (ape_scan i rayset).2 = false := by
      rw [ape_scan_flag]
      cases hb : rayset.flatten.all fun r => decide (i < r.length) with
      | false => rfl
      | true =>
          exfalso
          apply hnall
          intro f hf r hrf
          have := List.all_eq_true.mp hb r ((hflat r).mpr ⟨f, hf, hrf⟩)
          simpa using this
    rw [set_ape, hgetD, if_neg (by simp [hflag])]

/-- C7 witness: in a ray set where both rays reach surface 0 (heights 5
and 2) but only one reaches surface 1, surface 0's aperture becomes the
height of one of the rays and bounds them all, while surface 1's
aperture stays at its old value 20. -/
theorem set_ape_updates_iff_all_rays_reach_witness :
    ((∃ f ∈ w7Rayset, ∃ r ∈ f,
        (set_ape w7Rayset [10, 20]).getD 0 0 = ray_height 0 r)
      ∧ ∀ f ∈ w7Rayset, ∀ r ∈ f,
          ray_height 0 r ≤ (set_ape w7Rayset [10, 20]).getD 0 0)
    ∧ (set_ape w7Rayset [10, 20]).getD 1 0 = ([10, 20] : List ℚ).getD 1 0 :=
  ⟨(set_ape_updates_iff_all_rays_reach w7Rayset [10, 20] 0 (by norm_num)).1
      (by with_unfolding_all decide) (by with_unfolding_all decide),
   (set_ape_updates_iff_all_rays_reach w7Rayset [10, 20] 1 (by norm_num)).2
      (by with_unfolding_all decide)⟩

end Vigcalc
